import Mathlib

/-!
ZuriDao: the Election page, the deployment script and the election ledger

* `ZuriDao.Page`   embeds `frontend/src/pages/Election/index.jsx`: the component
  state (`show`), its three handlers, the rendered element tree and the user
  events that drive it.
* `ZuriDao.Deploy` embeds `scripts/deploy.js`: `main` and the promise chain that
  turns its outcome into an exit status.
* `ZuriDao.Ledger` models the election ledger (the `ZuriElection` contract the
  script deploys); its source is not part of the repository snapshot, so it is
  modelled from the specification.
-/

namespace ZuriDao

/-! ## JavaScript values and truthiness -/

/-- The JavaScript values a context field such as `isStudent` can hold. -/
inductive JSValue where
  | undefined
  | null
  | bool (b : Bool)
  | number (n : Int)
  | string (s : String)
  deriving DecidableEq, Repr

/-- JavaScript `ToBoolean`: `undefined`, `null`, `false`, `0` and `""` are falsy. -/
def JSValue.truthy : JSValue → Bool
  | .undefined => false
  | .null => false
  | .bool b => b
  | .number n => n != 0
  | .string s => s != ""

namespace Page

/-! ## Handlers and their effects -/

/-- A call to a function outside the component (`alert(...)`, a ledger request, ...). -/
structure Call where
  callee : String
  args : List String
  deriving DecidableEq, Repr

/-- One entry of the `buttons` array passed to `confirmAlert`; `onClick` is the
body of its arrow function, the calls it makes in order. -/
structure DialogButton where
  label : String
  onClick : List Call
  deriving DecidableEq, Repr

/-- The options object passed to `confirmAlert`. -/
structure ConfirmOptions where
  title : String
  message : String
  buttons : List DialogButton
  deriving DecidableEq, Repr

/-- What a handler of the component does when it runs. -/
inductive Effect where
  | setShow (b : Bool)
  | confirmAlert (o : ConfirmOptions)
  deriving DecidableEq, Repr

/-- The three handlers declared in the component. -/
inductive Handler where
  | handleClose
  | handleShow
  | handleVote
  deriving DecidableEq, Repr

/-- The handler `const handleClose = () => setShow(false)` (line 27). -/
def handleClose : List Effect := [.setShow false]

/-- The handler `const handleShow = () => setShow(true)` (line 28). -/
def handleShow : List Effect := [.setShow true]

/-- The options literal inside `handleVote`. -/
def voteDialog : ConfirmOptions where
  title := "Confirm to submit"
  message := "Are you sure, You want to vote Samuel Okpe"
  buttons :=
    [ { label := "Yes", onClick := [{ callee := "alert", args := ["Click Yes"] }] },
      { label := "No", onClick := [{ callee := "alert", args := ["Click No"] }] } ]

/-- The handler `handleVote` (lines 30-45): one call of `confirmAlert` with the options above. -/
def handleVote : List Effect := [.confirmAlert voteDialog]

/-- The body of a handler. -/
def Handler.body : Handler → List Effect
  | .handleClose => Page.handleClose
  | .handleShow => Page.handleShow
  | .handleVote => Page.handleVote

/-! ## The rendered element tree -/

/-- A rendered JSX node: text, or an element with its tag, `className`, event
handler (`onClick`, or `onHide` for the modal) and children. Attributes that
carry no behaviour (`src`, `alt`, `size`, `id`, `aria-labelledby`,
`closeButton`) are not kept. -/
inductive Node where
  | text (s : String)
  | elem (tag : String) (className : String) (handler : Option Handler) (children : List Node)
  deriving Repr

/-- The modal shown while `show` is true (lines 60-73). -/
def modal : Node :=
  .elem "Modal" "" (some .handleClose)
    [ .elem "Modal.Header" "" none
        [ .elem "Modal.Title" "" none [.text "Candidates Manifesto"] ],
      .elem "Modal.Body" "" none
        [ .elem "h5" "card-title" none [.text "Samuel Okpe"],
          .elem "p" "card-text" none
            [.text "Some quick example text to build on the card title and make up the bulk of the card's content."] ] ]

/-- The branch rendered when `!isStudent` holds (lines 79-104). -/
def adminView : Node :=
  .elem "div" "container" none
    [ .elem "div" "row" none
        [ .elem "div" "d-flex justify-content-end" none
            [ .elem "button" "btn btn-lg btn-success me-2" none [.text "Start Election"],
              .elem "button" "btn btn-lg btn-danger me-2" none [.text "End Election"],
              .elem "button" "btn btn-lg btn-primary me-2" none [.text "Make Public"],
              .elem "button" "btn btn-lg btn-primary me-2" none [.text "Make Private"] ] ],
      .elem "div" "row" none
        [ .elem "div" "col-4" none
            [ .elem "div" "card" none
                [ .elem "img" "card-img-top" none [],
                  .elem "div" "card-body" none
                    [ .elem "h5" "card-title" none [.text "Samuel Okpe"],
                      .elem "span" "display-2" none [.text "42"],
                      .elem "small" "" none [.text "votes"],
                      .elem "br" "" none [],
                      .elem "button" "btn btn-primary btn-lg float-left" (some .handleShow)
                        [.text "View Candidate"],
                      .elem "button" "btn btn-success btn-lg float-right" (some .handleVote)
                        [.text "Vote Candidate"] ] ] ] ] ]

/-- The branch rendered otherwise (lines 107-113). -/
def restrictedView : Node :=
  .elem "div" "container" none
    [ .elem "div" "row" none
        [ .elem "div" "display-3" none
            [.text "This page is only accessible to the chairman and teachers"] ] ]

/-- The value returned by the `Election` component for context flag `isStudent`
and state `show`. The generated class names of `useStyles`/`useGlobalStyles`
are left out of the section's `className`; only its literal part is kept. -/
def Election (isStudent : JSValue) (showFlag : Bool) : Node :=
  .elem "main" "" none
    [ .elem "section" "bg-no-repeat flex flex-col pb-2" none
        [ if showFlag then modal else .text "",
          if !isStudent.truthy then adminView else restrictedView ] ]

mutual
/-- The concatenated text content of a node. -/
def Node.textContent : Node → String
  | .text s => s
  | .elem _ _ _ kids => Node.textContentList kids
/-- The concatenated text content of a list of nodes. -/
def Node.textContentList : List Node → String
  | [] => ""
  | n :: ns => n.textContent ++ Node.textContentList ns
end

mutual
/-- Every element of the tree with the given tag, in document order, as
(className, text content, handler). -/
def Node.byTag (tag : String) : Node → List (String × String × Option Handler)
  | .text _ => []
  | .elem t cls h kids =>
      (if t = tag then [(cls, Node.textContentList kids, h)] else []) ++ Node.byTagList tag kids
/-- The list version of `Node.byTag`. -/
def Node.byTagList (tag : String) : List Node → List (String × String × Option Handler)
  | [] => []
  | n :: ns => n.byTag tag ++ Node.byTagList tag ns
end

mutual
/-- Every piece of text in the tree, in document order. -/
def Node.texts : Node → List String
  | .text s => [s]
  | .elem _ _ _ kids => Node.textsList kids
/-- The list version of `Node.texts`. -/
def Node.textsList : List Node → List String
  | [] => []
  | n :: ns => n.texts ++ Node.textsList ns
end

mutual
/-- Every handler bound to an element of the tree, in document order. -/
def Node.handlers : Node → List Handler
  | .text _ => []
  | .elem _ _ h kids => h.toList ++ Node.handlersList kids
/-- The list version of `Node.handlers`. -/
def Node.handlersList : List Node → List Handler
  | [] => []
  | n :: ns => n.handlers ++ Node.handlersList ns
end

/-- The `button` elements of a tree as (label, handler), in document order. -/
def Node.buttons (n : Node) : List (String × Option Handler) :=
  (n.byTag "button").map fun b => (b.2.1, b.2.2)

/-- The labels of the `button` elements of a tree. -/
def Node.buttonLabels (n : Node) : List String :=
  n.buttons.map Prod.fst

/-- The labels of the four buttons of the toolbar row (lines 82-85). -/
def adminLabels : List String :=
  ["Start Election", "End Election", "Make Public", "Make Private"]

/-- The text of the `display-3` block of the other branch (line 110). -/
def restrictedMessage : String :=
  "This page is only accessible to the chairman and teachers"

/-- The vote count the page displays: the text of the `span.display-2` element
(line 94), if the tree has one. -/
def Node.voteCount (n : Node) : Option String :=
  ((n.byTag "span").find? fun e => e.1 == "display-2").map fun e => e.2.1

/-! ## State and events -/

/-- The state of the page: `showFlag` is the component state declared by
`useState(false)`; `dialog` is the confirmation dialog that
`react-confirm-alert` currently displays, if any; `calls` records, in order,
the calls made so far by dialog handlers. -/
structure PageState where
  showFlag : Bool
  dialog : Option ConfirmOptions
  calls : List Call
  deriving DecidableEq, Repr

/-- The state when the page is first shown: `useState(false)`, no dialog, no call made. -/
def PageState.init : PageState :=
  { showFlag := false, dialog := none, calls := [] }

/-- Running one effect of a handler. -/
def runEffect (s : PageState) : Effect → PageState
  | .setShow b => { s with showFlag := b }
  | .confirmAlert o => { s with dialog := some o }

/-- Running a handler: its effects in order. -/
def runHandler (s : PageState) (h : Handler) : PageState :=
  h.body.foldl runEffect s

/-- The user events of the page. `click l` is a click on the rendered button
labelled `l`; `hide` is the modal's `onHide` (its close button); `answer l` is
a click on the button labelled `l` of the open confirmation dialog. -/
inductive Event where
  | click (label : String)
  | hide
  | answer (label : String)
  deriving DecidableEq, Repr

/-- The handler an event triggers. A click triggers the `onClick` of the
rendered button with that label, when there is such a button and it has one;
`hide` triggers the modal's `onHide` when the modal is rendered; an answer
triggers no handler of the component. -/
def handlerOf (isStudent : JSValue) (s : PageState) : Event → Option Handler
  | .click label =>
      match (Election isStudent s.showFlag).buttons.find? fun b => b.1 == label with
      | some (_, some h) => some h
      | _ => none
  | .hide =>
      match (Election isStudent s.showFlag).byTag "Modal" with
      | (_, _, some h) :: _ => some h
      | _ => none
  | .answer _ => none

/-- One event. An event that triggers a handler runs it. An answer runs the
`onClick` of the chosen dialog button and then closes the dialog, as
`react-confirm-alert` does; without an open dialog there is nothing to answer. -/
def step (isStudent : JSValue) (s : PageState) (e : Event) : PageState :=
  match handlerOf isStudent s e with
  | some h => runHandler s h
  | none =>
      match e with
      | .answer label =>
          match s.dialog with
          | none => s
          | some o =>
              match o.buttons.find? fun b => b.label == label with
              | some b => { s with dialog := none, calls := s.calls ++ b.onClick }
              | none => s
      | _ => s

/-- A finite sequence of events. -/
def run (isStudent : JSValue) (s : PageState) (es : List Event) : PageState :=
  es.foldl (step isStudent) s

/-- The handlers that a sequence of events runs, in order. -/
def firedHandlers (isStudent : JSValue) : PageState → List Event → List Handler
  | _, [] => []
  | s, e :: es =>
      (handlerOf isStudent s e).toList ++ firedHandlers isStudent (step isStudent s e) es

/-- The `castVote` requests among a list of calls. -/
def castVoteRequests (cs : List Call) : List Call :=
  cs.filter fun c => c.callee == "castVote"

end Page

/-! ## The deployment script -/

namespace Deploy

/-- The constructor argument written in `deploy.js` (line 13). -/
def constructorArg : String :=
  "0x0dd148ca92cda1de4d8fabf1eb9cf55e5f6bc9334e43e440b7789e37181364c0"

/-- What the script does that is visible from outside, in order. -/
inductive Action where
  | log (parts : List String)
  | getContractFactory (name : String)
  | deploy (args : List String)
  | awaitDeployed
  | logError (error : String)
  | exit (code : Nat)
  deriving DecidableEq, Repr

/-- The outcomes of the three awaited hardhat/ethers operations: each either
rejects with an error or resolves. `deploy` resolves to a contract, of which
the script reads only `address`. -/
structure Hardhat where
  getContractFactory : String → Except String Unit
  deploy : List String → Except String String
  deployed : Except String Unit

/-- The async function `main` (lines 4-23): the actions it performs and whether
its promise resolves or rejects. An `await` on a rejected promise rejects
`main` at that point. -/
def main (env : Hardhat) : List Action × Except String Unit :=
  let t0 := [Action.log ["deploying ZURIELECTION contract......."],
             Action.getContractFactory "ZuriElection"]
  match env.getContractFactory "ZuriElection" with
  | .error e => (t0, .error e)
  | .ok () =>
    let t1 := t0 ++ [Action.deploy [constructorArg]]
    match env.deploy [constructorArg] with
    | .error e => (t1, .error e)
    | .ok address =>
      let t2 := t1 ++ [Action.awaitDeployed]
      match env.deployed with
      | .error e => (t2, .error e)
      | .ok () =>
        (t2 ++ [Action.log ["\n 🏵 ZuriElection Contract Address:", address]], .ok ())

/-- The whole script (lines 26-31): `main().then(() => process.exit(0))
.catch((error) => { console.error(error); process.exit(1); })`. -/
def script (env : Hardhat) : List Action :=
  match main env with
  | (t, .ok ()) => t ++ [Action.exit 0]
  | (t, .error e) => t ++ [Action.logError e, Action.exit 1]

/-- The exit status of a run: the code of its `exit` action. -/
def exitStatus (t : List Action) : Option Nat :=
  t.findSome? fun a => match a with
    | .exit c => some c
    | _ => none

/-- The `deploy` calls of a run, each with its argument list. -/
def deployCalls (t : List Action) : List (List String) :=
  t.filterMap fun a => match a with
    | .deploy args => some args
    | _ => none

/-- The names passed to `getContractFactory` during a run. -/
def factoryRequests (t : List Action) : List String :=
  t.filterMap fun a => match a with
    | .getContractFactory name => some name
    | _ => none

/-- The line that reports the address of the deployed contract (lines 19-22). -/
def addressReport (address : String) : Action :=
  .log ["\n 🏵 ZuriElection Contract Address:", address]

/-- A hexadecimal digit. -/
def isHexDigit (c : Char) : Bool :=
  c.isDigit || ('a' ≤ c && c ≤ 'f') || ('A' ≤ c && c ≤ 'F')

/-- The text `0x` followed by exactly `n` bytes written as `2 * n` hexadecimal digits. -/
def isHexBytes (n : Nat) (s : String) : Bool :=
  s.data.length == 2 + 2 * n && s.data.take 2 == ['0', 'x'] && (s.data.drop 2).all isHexDigit

/-- A caller address as ethers writes one: `0x` followed by 40 hexadecimal
digits (20 bytes). -/
def isAddress (s : String) : Bool := isHexBytes 20 s

/-- A 32-byte value as ethers writes one: `0x` followed by 64 hexadecimal digits. -/
def isBytes32 (s : String) : Bool := isHexBytes 32 s

end Deploy

/-! ## The election ledger

The `ZuriElection` contract that `deploy.js` deploys is not among the sources.
The definitions of this section follow sections 3, 4 and 6 of the
specification. -/

namespace Ledger

/-- Modelled from the spec: the contract source is missing; section 3
`Identity`, a unique caller handle, here a natural number. -/
abbrev Identity := Nat

/-- Modelled from the spec: the contract source is missing; section 3 `Role`. -/
inductive Role where
  | Administrator
  | Voter
  | Unregistered
  deriving DecidableEq, Repr

/-- Modelled from the spec: the contract source is missing; section 3
`ElectionPhase`. -/
inductive ElectionPhase where
  | Created
  | Open
  | Closed
  deriving DecidableEq, Repr

/-- Modelled from the spec: the contract source is missing; section 3
`Visibility`. -/
inductive Visibility where
  | Public
  | Private
  deriving DecidableEq, Repr

/-- Modelled from the spec: the contract source is missing; section 3
`Candidate`. -/
structure Candidate where
  id : Nat
  name : String
  manifesto : String
  voteCount : Nat
  deriving DecidableEq, Repr

/-- Modelled from the spec: the contract source is missing; section 3
`VoteRecord`. -/
structure VoteRecord where
  voter : Identity
  candidateId : Nat
  castAt : Nat
  deriving DecidableEq, Repr

/-- Modelled from the spec: the contract source is missing; section 7, the
error kinds. -/
inductive Error where
  | Unauthorized
  | InvalidPhase
  | AlreadyVoted
  | NotFound
  | NoCandidates
  deriving DecidableEq, Repr

/-- Modelled from the spec: the contract source is missing; section 5, the
state of one election instance: the role configuration, the candidates in
registration order, phase, visibility, the vote records in casting order and
the logical clock that stamps them. -/
structure Election where
  administrators : List Identity
  eligibleVoters : List Identity
  candidates : List Candidate
  phase : ElectionPhase
  visibility : Visibility
  votes : List VoteRecord
  clock : Nat
  deriving DecidableEq, Repr

/-- Modelled from the spec: the contract source is missing; section 6
`createElection(administrators, eligibleVoters)`. The instance starts in phase
Created with no candidate and no record. The spec names no initial visibility;
Private is taken. -/
def createElection (administrators eligibleVoters : List Identity) : Election :=
  { administrators := administrators, eligibleVoters := eligibleVoters, candidates := [],
    phase := .Created, visibility := .Private, votes := [], clock := 0 }

/-- Modelled from the spec: the contract source is missing; section 4.1
`roleOf(identity)`: administrators are those fixed at construction, the other
callers are Voter or Unregistered according to the eligibility list. -/
def roleOf (s : Election) (identity : Identity) : Role :=
  if s.administrators.contains identity then .Administrator
  else if s.eligibleVoters.contains identity then .Voter
  else .Unregistered

/-- Modelled from the spec: the contract source is missing; section 4.2
`registerCandidate(caller, name, manifesto)`: Unauthorized unless the caller is
an Administrator, InvalidPhase unless the phase is Created, otherwise appends a
candidate with no votes under the next ordinal, which is returned. -/
def registerCandidate (s : Election) (caller : Identity) (name manifesto : String) :
    Except Error (Election × Nat) :=
  if roleOf s caller ≠ .Administrator then .error .Unauthorized
  else if s.phase ≠ .Created then .error .InvalidPhase
  else
    let id := s.candidates.length
    .ok ({ s with candidates := s.candidates ++
            [{ id := id, name := name, manifesto := manifesto, voteCount := 0 }] }, id)

/-- Modelled from the spec: the contract source is missing; section 4.2
`listCandidates()`: the candidates in registration order. -/
def listCandidates (s : Election) : List Candidate := s.candidates

/-- Modelled from the spec: the contract source is missing; section 4.2
`incrementVote(candidateId)`: NotFound when no candidate has that id, otherwise
the tally of the candidate with that id is raised by one. -/
def incrementVote (cs : List Candidate) (candidateId : Nat) : Except Error (List Candidate) :=
  if cs.any fun c => c.id == candidateId then
    .ok (cs.map fun c => if c.id == candidateId then { c with voteCount := c.voteCount + 1 } else c)
  else .error .NotFound

/-- What `incrementVote` does to one candidate. -/
def bumpOne (candidateId : Nat) (c : Candidate) : Candidate :=
  if c.id == candidateId then { c with voteCount := c.voteCount + 1 } else c

/-- The candidate list after `incrementVote` succeeds, as a function of its own. -/
def bump (candidateId : Nat) (cs : List Candidate) : List Candidate :=
  cs.map (bumpOne candidateId)

/-- Modelled from the spec: the contract source is missing; section 4.3
`startElection(caller)`: requires an Administrator, phase Created and at least
one candidate; moves to Open. -/
def startElection (s : Election) (caller : Identity) : Except Error Election :=
  if roleOf s caller ≠ .Administrator then .error .Unauthorized
  else if s.phase ≠ .Created then .error .InvalidPhase
  else if s.candidates.isEmpty then .error .NoCandidates
  else .ok { s with phase := .Open }

/-- Modelled from the spec: the contract source is missing; section 4.3
`endElection(caller)`: requires an Administrator and phase Open; moves to
Closed. -/
def endElection (s : Election) (caller : Identity) : Except Error Election :=
  if roleOf s caller ≠ .Administrator then .error .Unauthorized
  else if s.phase ≠ .Open then .error .InvalidPhase
  else .ok { s with phase := .Closed }

/-- Modelled from the spec: the contract source is missing; section 4.3
`setVisibility(caller, v)`: requires an Administrator; InvalidPhase once the
phase is Closed. -/
def setVisibility (s : Election) (caller : Identity) (v : Visibility) : Except Error Election :=
  if roleOf s caller ≠ .Administrator then .error .Unauthorized
  else if s.phase = .Closed then .error .InvalidPhase
  else .ok { s with visibility := v }

/-- Modelled from the spec: the contract source is missing; section 4.4
`castVote(caller, candidateId)`, its five steps in order: Unauthorized unless
the caller is a Voter, InvalidPhase unless the phase is Open, AlreadyVoted when
the caller has a record, NotFound when the candidate does not exist, and on
success one new record together with the tally increment. -/
def castVote (s : Election) (caller : Identity) (candidateId : Nat) : Except Error Election :=
  if roleOf s caller ≠ .Voter then .error .Unauthorized
  else if s.phase ≠ .Open then .error .InvalidPhase
  else if s.votes.any fun r => r.voter == caller then .error .AlreadyVoted
  else
    match incrementVote s.candidates candidateId with
    | .error e => .error e
    | .ok cs =>
        .ok { s with
              candidates := cs
              votes := s.votes ++ [{ voter := caller, candidateId := candidateId, castAt := s.clock }]
              clock := s.clock + 1 }

/-- Modelled from the spec: the contract source is missing; section 4.5
`tallyOf(candidateId)`: the vote count of the candidate with that id. -/
def tallyOf (s : Election) (candidateId : Nat) : Option Nat :=
  (s.candidates.find? fun c => c.id == candidateId).map fun c => c.voteCount

/-- Modelled from the spec: the contract source is missing; section 3,
invariant 3, left side: the sum of the candidates' vote counts. -/
def totalVotes (s : Election) : Nat :=
  (s.candidates.map fun c => c.voteCount).sum

/-- Modelled from the spec: the contract source is missing; section 3,
invariant 2: the vote records of one voter. -/
def recordsOf (s : Election) (voter : Identity) : List VoteRecord :=
  s.votes.filter fun r => r.voter == voter

/-- Modelled from the spec: the contract source is missing; section 4.5, the
mutating operations of the facade, each with its caller and arguments. -/
inductive Op where
  | registerCandidate (caller : Identity) (name manifesto : String)
  | startElection (caller : Identity)
  | endElection (caller : Identity)
  | setVisibility (caller : Identity) (v : Visibility)
  | castVote (caller : Identity) (candidateId : Nat)
  deriving DecidableEq, Repr

/-- Whether an operation is a `castVote`. -/
def Op.isCastVote : Op → Bool
  | .castVote _ _ => true
  | _ => false

/-- Modelled from the spec: the contract source is missing; section 4.5, the
facade delegating one operation: the new state, or the typed failure. -/
def apply (s : Election) : Op → Except Error Election
  | .registerCandidate caller name manifesto =>
      match registerCandidate s caller name manifesto with
      | .ok (s', _) => .ok s'
      | .error e => .error e
  | .startElection caller => startElection s caller
  | .endElection caller => endElection s caller
  | .setVisibility caller v => setVisibility s caller v
  | .castVote caller candidateId => castVote s caller candidateId

/-- Modelled from the spec: the contract source is missing; section 7, a
failed operation leaves the instance as it was. -/
def step (s : Election) (op : Op) : Election :=
  match apply s op with
  | .ok s' => s'
  | .error _ => s

/-- The state after a sequence of operations, failed ones included. -/
def run (s : Election) (ops : List Op) : Election :=
  ops.foldl step s

/-- The responses to a sequence of operations: for each one whether it
succeeded or with which error it failed. -/
def responses : Election → List Op → List (Except Error Unit)
  | _, [] => []
  | s, op :: ops =>
      (match apply s op with
        | .ok _ => .ok ()
        | .error e => .error e) :: responses (step s op) ops

/-- The invariants of section 3 that the proofs carry along a run: candidate
ids are the ordinals of registration (so each id names one candidate), the
tallies sum to the number of records (invariant 3), and no voter has two
records (invariant 2). -/
def WellFormed (s : Election) : Prop :=
  s.candidates.map (fun c => c.id) = List.range s.candidates.length ∧
  totalVotes s = s.votes.length ∧
  (s.votes.map fun r => r.voter).Nodup

/-- A sequence of `castVote` calls, each given as (caller, candidate). -/
def castVotes (calls : List (Identity × Nat)) : List Op :=
  calls.map fun p => Op.castVote p.1 p.2

/-- Scenario A of section 8 up to the opening of the election: one
administrator (0), two voters (1 and 2), candidates Alice and Bob. -/
def scenarioA : List Op :=
  [ .registerCandidate 0 "Alice" "", .registerCandidate 0 "Bob" "", .startElection 0 ]

end Ledger

namespace Page

/-- The reading of the context flag that the specification gives (sections 6
and 9): `false` is the chairman or a teacher, an Administrator; `true` is a
student, a Voter; any other value, `undefined` included, is a caller that is
not registered or a context that has not resolved. -/
def callerRole : JSValue → Ledger.Role
  | .bool false => .Administrator
  | .bool true => .Voter
  | _ => .Unregistered

/-- The operations of the ElectionStateMachine of section 4.3 that an
Administrator can request. -/
inductive AdminOperation where
  | startElection
  | endElection
  | setVisibility (v : Ledger.Visibility)
  deriving DecidableEq, Repr

/-- The operation each toolbar label stands for (section 9 of the spec). -/
def adminOperation (label : String) : Option AdminOperation :=
  if label = "Start Election" then some .startElection
  else if label = "End Election" then some .endElection
  else if label = "Make Public" then some (.setVisibility .Public)
  else if label = "Make Private" then some (.setVisibility .Private)
  else none

/-- The names of the operations the ledger exposes (section 4.5 of the spec):
a call to one of them is a command or query sent to the ledger. -/
def ledgerOperations : List String :=
  ["registerCandidate", "startElection", "endElection", "setVisibility", "castVote",
   "listCandidates", "currentPhase", "currentVisibility", "tallyOf"]

/-- The calls of a list that go to the ledger. -/
def ledgerCalls (cs : List Call) : List Call :=
  cs.filter fun c => ledgerOperations.contains c.callee

end Page

end ZuriDao

/-! # Theorems -/

namespace ZuriDao.Page

/-! ## What the page renders -/

theorem buttons_render (isStudent : JSValue) (showFlag : Bool) :
    (Election isStudent showFlag).buttons =
      if isStudent.truthy then []
      else [("Start Election", none), ("End Election", none), ("Make Public", none),
            ("Make Private", none), ("View Candidate", some .handleShow),
            ("Vote Candidate", some .handleVote)] := by
  unfold Election
  cases isStudent.truthy <;> cases showFlag <;> rfl

theorem modal_render (isStudent : JSValue) (showFlag : Bool) :
    ((Election isStudent showFlag).byTag "Modal").map (fun e => e.2.2) =
      if showFlag then [some .handleClose] else [] := by
  unfold Election
  cases isStudent.truthy <;> cases showFlag <;> rfl

theorem handlers_render (isStudent : JSValue) (showFlag : Bool) :
    (Election isStudent showFlag).handlers =
      (if showFlag then [.handleClose] else []) ++
      (if isStudent.truthy then [] else [.handleShow, .handleVote]) := by
  unfold Election
  cases isStudent.truthy <;> cases showFlag <;> rfl

theorem texts_render (isStudent : JSValue) (showFlag : Bool) :
    (Election isStudent showFlag).texts =
      (if showFlag then modal.texts else [""]) ++
      (if isStudent.truthy then [restrictedMessage] else adminView.texts) := by
  unfold Election
  cases isStudent.truthy <;> cases showFlag <;> rfl

theorem voteCount_render (isStudent : JSValue) (showFlag : Bool) :
    (Election isStudent showFlag).voteCount = if isStudent.truthy then none else some "42" := by
  unfold Election
  cases isStudent.truthy <;> cases showFlag <;> rfl

theorem handlerOf_click (isStudent : JSValue) (s : PageState) (l : String) :
    handlerOf isStudent s (.click l) =
      if isStudent.truthy then none
      else if l = "View Candidate" then some .handleShow
      else if l = "Vote Candidate" then some .handleVote
      else none := by
  simp only [handlerOf, buttons_render]
  cases isStudent.truthy
  · by_cases h1 : l = "Start Election"
    · subst h1; rfl
    by_cases h2 : l = "End Election"
    · subst h2; rfl
    by_cases h3 : l = "Make Public"
    · subst h3; rfl
    by_cases h4 : l = "Make Private"
    · subst h4; rfl
    by_cases h5 : l = "View Candidate"
    · subst h5; rfl
    by_cases h6 : l = "Vote Candidate"
    · subst h6; rfl
    have e1 : ("Start Election" == l) = false := by simpa using Ne.symm h1
    have e2 : ("End Election" == l) = false := by simpa using Ne.symm h2
    have e3 : ("Make Public" == l) = false := by simpa using Ne.symm h3
    have e4 : ("Make Private" == l) = false := by simpa using Ne.symm h4
    have e5 : ("View Candidate" == l) = false := by simpa using Ne.symm h5
    have e6 : ("Vote Candidate" == l) = false := by simpa using Ne.symm h6
    simp [List.find?, e1, e2, e3, e4, e5, e6, h5, h6]
  · simp

theorem handlerOf_hide (isStudent : JSValue) (s : PageState) :
    handlerOf isStudent s .hide = if s.showFlag then some .handleClose else none := by
  simp only [handlerOf, Election]
  cases isStudent.truthy <;> cases s.showFlag <;> rfl

theorem handlerOf_answer (isStudent : JSValue) (s : PageState) (l : String) :
    handlerOf isStudent s (.answer l) = none := rfl

theorem showFlag_step_answer (isStudent : JSValue) (s : PageState) (l : String) :
    (step isStudent s (.answer l)).showFlag = s.showFlag := by
  simp only [step, handlerOf_answer]
  cases s.dialog with
  | none => rfl
  | some o =>
    simp only
    cases o.buttons.find? fun b => b.label == l <;> rfl

theorem step_answer_voteDialog (isStudent : JSValue) (s : PageState) (l : String) :
    step isStudent (runHandler s .handleVote) (.answer l) =
      if l = "Yes" then { s with dialog := none, calls := s.calls ++ [⟨"alert", ["Click Yes"]⟩] }
      else if l = "No" then { s with dialog := none, calls := s.calls ++ [⟨"alert", ["Click No"]⟩] }
      else { s with dialog := some voteDialog } := by
  by_cases h1 : l = "Yes"
  · subst h1; rfl
  by_cases h2 : l = "No"
  · subst h2; rfl
  have e1 : ("Yes" == l) = false := by simpa using Ne.symm h1
  have e2 : ("No" == l) = false := by simpa using Ne.symm h2
  simp [step, handlerOf_answer, runHandler, Handler.body, handleVote, runEffect, voteDialog,
    List.find?, e1, e2, h1, h2]

theorem step_click_admin (isStudent : JSValue) (s : PageState) (l : String)
    (hl : l ∈ adminLabels) : step isStudent s (.click l) = s := by
  have hnone : handlerOf isStudent s (.click l) = none := by
    rw [handlerOf_click]
    simp only [adminLabels, List.mem_cons, List.mem_singleton, List.not_mem_nil, or_false] at hl
    rcases hl with h | h | h | h <;> subst h <;> cases isStudent.truthy <;> rfl
  simp only [step, hnone]

theorem handlerOf_ne_handleVote (isStudent : JSValue) (h : isStudent.truthy = true)
    (s : PageState) (e : Event) : handlerOf isStudent s e ≠ some .handleVote := by
  cases e with
  | click l => simp [handlerOf_click, h]
  | hide => rw [handlerOf_hide]; cases s.showFlag <;> simp
  | answer l => simp [handlerOf_answer]

/-! ## The claims about the Election page -/

/-- C1, as stated, fails: when `isStudent` is `undefined`, which the spec reads
as a caller who is not registered (so not an Administrator), the page renders
the four administrative buttons and does not Election the access-restricted
message. -/
theorem admin_controls_shown_when_isStudent_undefined :
    callerRole .undefined = .Unregistered ∧
    (Election .undefined false).buttonLabels.filter (fun l => adminLabels.contains l) = adminLabels ∧
    ¬ restrictedMessage ∈ (Election .undefined false).texts := by
  decide

/-- C1, amended: for every value of `isStudent` and of `show`, the page
renders the four administrative buttons exactly when `isStudent` is falsy
(`false`, absent or undefined), and when `isStudent` is truthy it renders none
of them and shows the access-restricted message instead. -/
theorem admin_controls_iff_isStudent_falsy (isStudent : JSValue) (showFlag : Bool) :
    (Election isStudent showFlag).buttonLabels.filter (fun l => adminLabels.contains l) =
        (if isStudent.truthy then [] else adminLabels) ∧
    (restrictedMessage ∈ (Election isStudent showFlag).texts ↔ isStudent.truthy = true) := by
  constructor
  · simp only [Node.buttonLabels, buttons_render]
    cases isStudent.truthy <;> rfl
  · rw [texts_render]
    cases isStudent.truthy <;> cases showFlag <;> decide

/-- C2, as stated, fails: after `Vote Candidate` is clicked and the dialog is
answered Yes, no `castVote` request has been issued (the claim requires exactly
one); the only call made is `alert('Click Yes')`. -/
theorem yes_answer_issues_no_castVote :
    (castVoteRequests
        (run (.bool false) .init [.click "Vote Candidate", .answer "Yes"]).calls).length ≠ 1 ∧
    (run (.bool false) .init [.click "Vote Candidate", .answer "Yes"]).calls =
        [⟨"alert", ["Click Yes"]⟩] := by
  decide

/-- C2, amended: `handleVote` only opens a confirmation dialog whose choices
are exactly Yes and No and issues no `castVote` request by itself; and for
every answer to that dialog, Yes included, no `castVote` request is issued. -/
theorem handleVote_opens_dialog_no_castVote (isStudent : JSValue) (s : PageState) (l : String) :
    runHandler s .handleVote = { s with dialog := some voteDialog } ∧
    voteDialog.buttons.map (fun b => b.label) = ["Yes", "No"] ∧
    castVoteRequests (runHandler s .handleVote).calls = castVoteRequests s.calls ∧
    castVoteRequests (step isStudent (runHandler s .handleVote) (.answer l)).calls =
      castVoteRequests s.calls := by
  refine ⟨rfl, rfl, rfl, ?_⟩
  rw [step_answer_voteDialog]
  by_cases h1 : l = "Yes"
  · simp [h1, castVoteRequests, List.filter_append]
  by_cases h2 : l = "No"
  · simp [h2, castVoteRequests, List.filter_append]
  simp [h1, h2]

/-- C6: the administrative buttons the page renders are exactly Start Election,
End Election, Make Public and Make Private (in the branch that shows them;
none in the other), each without an `onClick` handler; they stand one-to-one
for startElection, endElection, setVisibility(Public) and
setVisibility(Private); and a click on any of them leaves the whole page state,
the `show` flag in particular, and the rendered output unchanged. -/
theorem admin_buttons_carry_no_behaviour (isStudent : JSValue) (s : PageState) :
    (Election isStudent s.showFlag).buttons.filter (fun b => adminLabels.contains b.1) =
        (if isStudent.truthy then [] else adminLabels.map fun l => (l, none)) ∧
    adminLabels.map adminOperation =
        [some .startElection, some .endElection, some (.setVisibility .Public),
         some (.setVisibility .Private)] ∧
    (∀ l, l ∈ adminLabels →
        step isStudent s (.click l) = s ∧
        (step isStudent s (.click l)).showFlag = s.showFlag ∧
        Election isStudent (step isStudent s (.click l)).showFlag = Election isStudent s.showFlag) := by
  refine ⟨?_, by decide, ?_⟩
  · rw [buttons_render]
    cases isStudent.truthy <;> rfl
  · intro l hl
    rw [step_click_admin isStudent s l hl]
    exact ⟨rfl, rfl, rfl⟩

/-- Witness for C6 at a non-student with the modal open: a click on Make
Public changes nothing. -/
theorem admin_buttons_carry_no_behaviour_witness :
    step (.bool false) ⟨true, none, []⟩ (.click "Make Public") = ⟨true, none, []⟩ :=
  ((admin_buttons_carry_no_behaviour (.bool false) ⟨true, none, []⟩).2.2
    "Make Public" (by decide)).1

/-- C7: for every value of `isStudent`, every state and every finite sequence
of user events, the vote count the page displays after the sequence is the one
it displayed before, and that value is the literal 42 whenever the candidate
card is rendered. -/
theorem displayed_vote_count_is_static (isStudent : JSValue) (s : PageState) (es : List Event) :
    (Election isStudent (run isStudent s es).showFlag).voteCount =
        (Election isStudent s.showFlag).voteCount ∧
    (Election isStudent s.showFlag).voteCount = (if isStudent.truthy then none else some "42") := by
  constructor
  · unfold Election
    cases isStudent.truthy <;> cases (run isStudent s es).showFlag <;> cases s.showFlag <;> rfl
  · exact voteCount_render isStudent s.showFlag

/-- C8: the dialog opened by `handleVote` has a Yes and a No button with
separate handlers, each a single `alert`; for either answer the component state
(`show`) is unchanged, the dialog closes, no call goes to the ledger, and the
two outcomes differ only in the text passed to `alert`. -/
theorem dialog_answers_only_alert (isStudent : JSValue) (s : PageState) :
    voteDialog.buttons =
        [⟨"Yes", [⟨"alert", ["Click Yes"]⟩]⟩, ⟨"No", [⟨"alert", ["Click No"]⟩]⟩] ∧
    step isStudent (runHandler s .handleVote) (.answer "Yes") =
        { s with dialog := none, calls := s.calls ++ [⟨"alert", ["Click Yes"]⟩] } ∧
    step isStudent (runHandler s .handleVote) (.answer "No") =
        { s with dialog := none, calls := s.calls ++ [⟨"alert", ["Click No"]⟩] } ∧
    (step isStudent (runHandler s .handleVote) (.answer "Yes")).showFlag = s.showFlag ∧
    (step isStudent (runHandler s .handleVote) (.answer "No")).showFlag = s.showFlag ∧
    ledgerCalls (step isStudent (runHandler s .handleVote) (.answer "Yes")).calls =
        ledgerCalls s.calls ∧
    ledgerCalls (step isStudent (runHandler s .handleVote) (.answer "No")).calls =
        ledgerCalls s.calls := by
  refine ⟨rfl, rfl, rfl, rfl, rfl, ?_, ?_⟩
  · show ledgerCalls (s.calls ++ [⟨"alert", ["Click Yes"]⟩]) = ledgerCalls s.calls
    simp only [ledgerCalls, List.filter_append]
    exact List.append_nil _
  · show ledgerCalls (s.calls ++ [⟨"alert", ["Click No"]⟩]) = ledgerCalls s.calls
    simp only [ledgerCalls, List.filter_append]
    exact List.append_nil _

/-- C10: for every value of `isStudent`, the Vote Candidate button bound to
`handleVote`, the candidate card and the four administrative buttons are
rendered under the same condition, namely exactly when `isStudent` is falsy;
and when `isStudent` is truthy no rendered element is bound to `handleVote` and
no sequence of user events runs it. -/
theorem vote_button_gated_like_admin_controls (isStudent : JSValue) (s : PageState)
    (es : List Event) :
    (("Vote Candidate", some Handler.handleVote) ∈ (Election isStudent s.showFlag).buttons ↔
        isStudent.truthy = false) ∧
    ("card" ∈ ((Election isStudent s.showFlag).byTag "div").map (fun e => e.1) ↔
        isStudent.truthy = false) ∧
    ((∀ l, l ∈ adminLabels → l ∈ (Election isStudent s.showFlag).buttonLabels) ↔
        isStudent.truthy = false) ∧
    ((∃ l, l ∈ adminLabels ∧ l ∈ (Election isStudent s.showFlag).buttonLabels) ↔
        isStudent.truthy = false) ∧
    (Handler.handleVote ∈ (Election isStudent s.showFlag).handlers ↔ isStudent.truthy = false) ∧
    (isStudent.truthy = true → Handler.handleVote ∉ firedHandlers isStudent s es) := by
  refine ⟨?_, ?_, ?_, ?_, ?_, ?_⟩
  · rw [buttons_render]
    cases isStudent.truthy <;> decide
  · unfold Election
    cases isStudent.truthy <;> cases s.showFlag <;> decide
  · simp only [Node.buttonLabels, buttons_render]
    cases isStudent.truthy <;> decide
  · simp only [Node.buttonLabels, buttons_render]
    cases isStudent.truthy <;> decide
  · rw [handlers_render]
    cases isStudent.truthy <;> cases s.showFlag <;> decide
  · intro h
    induction es generalizing s with
    | nil => simp [firedHandlers]
    | cons e es ih =>
      simp only [firedHandlers, List.mem_append, not_or]
      refine ⟨?_, ih _⟩
      intro hmem
      have := handlerOf_ne_handleVote isStudent h s e
      cases hh : handlerOf isStudent s e with
      | none => simp [hh] at hmem
      | some x =>
        simp [hh] at hmem
        exact this (by rw [hh, hmem])

/-- Witness for C10 at a student: clicking Vote Candidate, among other events,
never runs `handleVote`. -/
theorem vote_button_gated_like_admin_controls_witness :
    Handler.handleVote ∉
      firedHandlers (.bool true) .init [.click "Vote Candidate", .hide, .answer "Yes"] :=
  (vote_button_gated_like_admin_controls (.bool true) .init
    [.click "Vote Candidate", .hide, .answer "Yes"]).2.2.2.2.2 rfl

end ZuriDao.Page

namespace ZuriDao.Deploy

/-! ## The deployment script -/

/-- The four shapes a run of the script can take, according to which awaited
step rejects first. -/
theorem script_cases (env : Hardhat) :
    (∃ e, env.getContractFactory "ZuriElection" = .error e ∧
        main env = ([.log ["deploying ZURIELECTION contract......."],
                     .getContractFactory "ZuriElection"], .error e)) ∨
    (∃ e, env.getContractFactory "ZuriElection" = .ok () ∧
        env.deploy [constructorArg] = .error e ∧
        main env = ([.log ["deploying ZURIELECTION contract......."],
                     .getContractFactory "ZuriElection", .deploy [constructorArg]], .error e)) ∨
    (∃ a e, env.getContractFactory "ZuriElection" = .ok () ∧
        env.deploy [constructorArg] = .ok a ∧ env.deployed = .error e ∧
        main env = ([.log ["deploying ZURIELECTION contract......."],
                     .getContractFactory "ZuriElection", .deploy [constructorArg],
                     .awaitDeployed], .error e)) ∨
    (∃ a, env.getContractFactory "ZuriElection" = .ok () ∧
        env.deploy [constructorArg] = .ok a ∧ env.deployed = .ok () ∧
        main env = ([.log ["deploying ZURIELECTION contract......."],
                     .getContractFactory "ZuriElection", .deploy [constructorArg],
                     .awaitDeployed, .log ["\n 🏵 ZuriElection Contract Address:", a]],
                    .ok ())) := by
  rcases h1 : env.getContractFactory "ZuriElection" with e | ⟨⟩
  · left; exact ⟨e, rfl, by simp [main, h1]⟩
  rcases h2 : env.deploy [constructorArg] with e | a
  · right; left; exact ⟨e, rfl, rfl, by simp [main, h1, h2]⟩
  rcases h3 : env.deployed with e | ⟨⟩
  · right; right; left; exact ⟨a, e, rfl, rfl, rfl, by simp [main, h1, h2, h3]⟩
  · right; right; right; exact ⟨a, rfl, rfl, rfl, by simp [main, h1, h2, h3]⟩

/-- C5, as stated, fails: in a run where every step succeeds, the single
argument passed to `deploy` is a 66-character literal, `0x` and 64 hexadecimal
digits (32 bytes); it is not a caller address, which has 20 bytes. And in a
run where `getContractFactory` rejects, `deploy` is not called at all. -/
theorem deploy_argument_is_not_an_address :
    deployCalls (script ⟨fun _ => .ok (), fun _ => .ok "0x5FbDB2315678afecb367f032d93F642f64180aa3",
        .ok ()⟩) = [[constructorArg]] ∧
    isAddress constructorArg = false ∧
    constructorArg.length = 66 ∧
    deployCalls (script ⟨fun _ => .error "HH700: Artifact for contract ZuriElection not found",
        fun _ => .ok "0x5FbDB2315678afecb367f032d93F642f64180aa3", .ok ()⟩) = [] := by
  decide

/-- C5, amended: in every run the script requests the `ZuriElection` factory
and calls `deploy` at most once; once the factory is obtained it calls `deploy`
exactly once, with exactly one constructor argument, which is the 32-byte
hexadecimal literal of line 13 (not a 20-byte caller address); and the address
is reported only after the awaited deployment has succeeded. -/
theorem deploys_once_with_one_bytes32_argument (env : Hardhat) :
    factoryRequests (script env) = ["ZuriElection"] ∧
    (deployCalls (script env)).length ≤ 1 ∧
    (env.getContractFactory "ZuriElection" = .ok () →
        deployCalls (script env) = [[constructorArg]]) ∧
    isBytes32 constructorArg = true ∧
    isAddress constructorArg = false ∧
    (∀ a, addressReport a ∈ script env →
        env.deploy [constructorArg] = .ok a ∧ env.deployed = .ok () ∧
        script env =
          [.log ["deploying ZURIELECTION contract......."], .getContractFactory "ZuriElection",
           .deploy [constructorArg], .awaitDeployed, addressReport a, .exit 0]) := by
  have hb : isBytes32 constructorArg = true := by decide
  have ha : isAddress constructorArg = false := by decide
  rcases script_cases env with ⟨e, h1, hm⟩ | ⟨e, h1, h2, hm⟩ | ⟨a, e, h1, h2, h3, hm⟩ |
    ⟨a, h1, h2, h3, hm⟩
  · refine ⟨?_, ?_, ?_, hb, ha, ?_⟩
    · simp [script, hm, factoryRequests]
    · simp [script, hm, deployCalls]
    · intro h; rw [h1] at h; cases h
    · intro a hmem; simp [script, hm, addressReport] at hmem
  · refine ⟨?_, ?_, ?_, hb, ha, ?_⟩
    · simp [script, hm, factoryRequests]
    · simp [script, hm, deployCalls]
    · intro _; simp [script, hm, deployCalls]
    · intro a hmem; simp [script, hm, addressReport] at hmem
  · refine ⟨?_, ?_, ?_, hb, ha, ?_⟩
    · simp [script, hm, factoryRequests]
    · simp [script, hm, deployCalls]
    · intro _; simp [script, hm, deployCalls]
    · intro a hmem; simp [script, hm, addressReport] at hmem
  · refine ⟨?_, ?_, ?_, hb, ha, ?_⟩
    · simp [script, hm, factoryRequests]
    · simp [script, hm, deployCalls]
    · intro _; simp [script, hm, deployCalls]
    · intro b hmem
      simp [script, hm, addressReport] at hmem
      subst hmem
      exact ⟨h2, h3, by simp [script, hm, addressReport]⟩

/-- Witness for C5 in a run where every step succeeds and the contract lands
at a given address. -/
theorem deploys_once_with_one_bytes32_argument_witness :
    deployCalls (script ⟨fun _ => .ok (), fun _ => .ok "0xabc", .ok ()⟩) = [[constructorArg]] :=
  (deploys_once_with_one_bytes32_argument ⟨fun _ => .ok (), fun _ => .ok "0xabc", .ok ()⟩).2.2.1 rfl

/-- C9: the exit status of the script is 0 exactly when obtaining the factory,
deploying and waiting for the deployment all succeed; when any of the three
fails, the run ends by logging that step's error with `console.error` and
exiting with status 1; no run ends any other way. -/
theorem exit_status_reports_outcome (env : Hardhat) :
    (exitStatus (script env) = some 0 ↔
      (env.getContractFactory "ZuriElection" = .ok () ∧
       (∃ a, env.deploy [constructorArg] = .ok a) ∧ env.deployed = .ok ())) ∧
    (∀ e, (env.getContractFactory "ZuriElection" = .error e ∨
           (env.getContractFactory "ZuriElection" = .ok () ∧
              env.deploy [constructorArg] = .error e) ∨
           (env.getContractFactory "ZuriElection" = .ok () ∧
              (∃ a, env.deploy [constructorArg] = .ok a) ∧ env.deployed = .error e)) →
        exitStatus (script env) = some 1 ∧
        ∃ t, script env = t ++ [.logError e, .exit 1]) ∧
    (exitStatus (script env) = some 0 ∨ exitStatus (script env) = some 1) := by
  rcases script_cases env with ⟨e, h1, hm⟩ | ⟨e, h1, h2, hm⟩ | ⟨a, e, h1, h2, h3, hm⟩ |
    ⟨a, h1, h2, h3, hm⟩
  · have hs : exitStatus (script env) = some 1 := by simp [script, hm, exitStatus]
    refine ⟨?_, ?_, Or.inr hs⟩
    · simp [hs, h1]
    · intro e' h
      simp [h1] at h
      subst h
      exact ⟨hs, _, by simp only [script, hm]; rfl⟩
  · have hs : exitStatus (script env) = some 1 := by simp [script, hm, exitStatus]
    refine ⟨?_, ?_, Or.inr hs⟩
    · simp [hs, h1, h2]
    · intro e' h
      simp [h1, h2] at h
      subst h
      exact ⟨hs, _, by simp only [script, hm]; rfl⟩
  · have hs : exitStatus (script env) = some 1 := by simp [script, hm, exitStatus]
    refine ⟨?_, ?_, Or.inr hs⟩
    · simp [hs, h1, h2, h3]
    · intro e' h
      simp [h1, h2, h3] at h
      subst h
      exact ⟨hs, _, by simp only [script, hm]; rfl⟩
  · have hs : exitStatus (script env) = some 0 := by simp [script, hm, exitStatus]
    refine ⟨?_, ?_, Or.inl hs⟩
    · simp [hs, h1, h2, h3]
    · intro e' h
      simp [h1, h2, h3] at h

/-- Witness for C9: when `deploy` rejects, the script logs that error and
exits with status 1. -/
theorem exit_status_reports_outcome_witness :
    exitStatus (script ⟨fun _ => .ok (), fun _ => .error "insufficient funds", .ok ()⟩) = some 1 :=
  ((exit_status_reports_outcome
      ⟨fun _ => .ok (), fun _ => .error "insufficient funds", .ok ()⟩).2.1
    "insufficient funds" (Or.inr (Or.inl ⟨rfl, rfl⟩))).1

end ZuriDao.Deploy

namespace ZuriDao.Ledger

/-! ## The ledger -/

theorem incrementVote_eq (cs : List Candidate) (c : Nat) :
    incrementVote cs c =
      if cs.any (fun x => x.id == c) then .ok (bump c cs) else .error .NotFound := rfl

theorem bumpOne_id (c : Nat) (x : Candidate) : (bumpOne c x).id = x.id := by
  unfold bumpOne
  split <;> rfl

theorem bumpOne_voteCount (c : Nat) (x : Candidate) :
    (bumpOne c x).voteCount = if x.id = c then x.voteCount + 1 else x.voteCount := by
  unfold bumpOne
  by_cases h : x.id = c <;> simp [h]

theorem bump_cons (c : Nat) (x : Candidate) (xs : List Candidate) :
    bump c (x :: xs) = bumpOne c x :: bump c xs := rfl

theorem bump_ids (c : Nat) (cs : List Candidate) :
    (bump c cs).map (fun x => x.id) = cs.map (fun x => x.id) := by
  induction cs with
  | nil => rfl
  | cons x xs ih => rw [bump_cons, List.map_cons, List.map_cons, ih, bumpOne_id]

theorem bump_length (c : Nat) (cs : List Candidate) : (bump c cs).length = cs.length := by
  simp [bump]

theorem sum_bump_of_not_mem (c : Nat) (cs : List Candidate)
    (h : c ∉ cs.map (fun x => x.id)) :
    ((bump c cs).map (fun x => x.voteCount)).sum = (cs.map (fun x => x.voteCount)).sum := by
  induction cs with
  | nil => rfl
  | cons x xs ih =>
    simp only [List.map_cons, List.mem_cons, not_or] at h
    have hx : ¬ x.id = c := fun e => h.1 e.symm
    rw [bump_cons, List.map_cons, List.map_cons, List.sum_cons, List.sum_cons, ih h.2,
      bumpOne_voteCount, if_neg hx]

theorem sum_bump (c : Nat) (cs : List Candidate)
    (hnd : (cs.map (fun x => x.id)).Nodup) (hmem : c ∈ cs.map (fun x => x.id)) :
    ((bump c cs).map (fun x => x.voteCount)).sum = (cs.map (fun x => x.voteCount)).sum + 1 := by
  induction cs with
  | nil => simp at hmem
  | cons x xs ih =>
    simp only [List.map_cons, List.nodup_cons] at hnd
    simp only [List.map_cons, List.mem_cons] at hmem
    rw [bump_cons, List.map_cons, List.map_cons, List.sum_cons, List.sum_cons, bumpOne_voteCount]
    by_cases hx : x.id = c
    · have hnot : c ∉ xs.map (fun x => x.id) := by rw [← hx]; exact hnd.1
      rw [sum_bump_of_not_mem c xs hnot, if_pos hx]
      omega
    · have hin : c ∈ xs.map (fun x => x.id) := by
        rcases hmem with h | h
        · exact absurd h.symm hx
        · exact h
      rw [ih hnd.2 hin, if_neg hx]
      omega

theorem find_bump (c c' : Nat) (cs : List Candidate) :
    ((bump c cs).find? (fun x => x.id == c')).map (fun x => x.voteCount) =
      if c' = c then ((cs.find? (fun x => x.id == c')).map (fun x => x.voteCount)).map (· + 1)
      else (cs.find? (fun x => x.id == c')).map (fun x => x.voteCount) := by
  induction cs with
  | nil => simp [bump]
  | cons x xs ih =>
    rw [bump_cons]
    by_cases hx : x.id = c'
    · have h1 : (fun y : Candidate => y.id == c') (bumpOne c x) = true := by
        simp [bumpOne_id, hx]
      have h2 : (fun y : Candidate => y.id == c') x = true := by simp [hx]
      rw [@List.find?_cons_of_pos _ (fun y : Candidate => y.id == c') (bumpOne c x) (bump c xs) h1,
        @List.find?_cons_of_pos _ (fun y : Candidate => y.id == c') x xs h2]
      simp only [Option.map_some', bumpOne_voteCount, hx]
      by_cases hc : c' = c <;> simp [hc]
    · have h1 : ¬ (fun y : Candidate => y.id == c') (bumpOne c x) = true := by
        simp [bumpOne_id, hx]
      have h2 : ¬ (fun y : Candidate => y.id == c') x = true := by simp [hx]
      rw [@List.find?_cons_of_neg _ (fun y : Candidate => y.id == c') (bumpOne c x) (bump c xs) h1,
        @List.find?_cons_of_neg _ (fun y : Candidate => y.id == c') x xs h2]
      exact ih

theorem castVote_ok_iff (s : Election) (v : Identity) (c : Nat) (s' : Election) :
    castVote s v c = .ok s' ↔
      roleOf s v = .Voter ∧ s.phase = .Open ∧ (s.votes.any fun r => r.voter == v) = false ∧
      (s.candidates.any fun x => x.id == c) = true ∧
      s' = { s with
             candidates := bump c s.candidates
             votes := s.votes ++ [{ voter := v, candidateId := c, castAt := s.clock }]
             clock := s.clock + 1 } := by
  unfold castVote
  rw [incrementVote_eq]
  by_cases h1 : roleOf s v = .Voter
  · by_cases h2 : s.phase = .Open
    · cases h3 : (s.votes.any fun r => r.voter == v)
      · cases h4 : (s.candidates.any fun x => x.id == c)
        · simp [h1, h2]
        · simp only [h1, h2, ne_eq, not_true_eq_false, if_false, if_true, Except.ok.injEq,
            true_and, Bool.false_eq_true]
          exact eq_comm
      · simp [h1, h2]
    · simp [h1, h2]
  · simp [h1]

theorem castVote_already (s : Election) (v : Identity) (c : Nat)
    (h1 : roleOf s v = .Voter) (h2 : s.phase = .Open)
    (h3 : (s.votes.any fun r => r.voter == v) = true) :
    castVote s v c = .error .AlreadyVoted := by
  unfold castVote
  simp [h1, h2, h3]

theorem any_eq_false_of_recordsOf_nil (s : Election) (v : Identity) (h : recordsOf s v = []) :
    (s.votes.any fun r => r.voter == v) = false := by
  unfold recordsOf at h
  rw [List.filter_eq_nil_iff] at h
  rw [List.any_eq_false]
  exact h

theorem any_id_of_tallyOf_isSome (s : Election) (c : Nat) (h : (tallyOf s c).isSome = true) :
    (s.candidates.any fun x => x.id == c) = true := by
  unfold tallyOf at h
  rw [Option.isSome_map', List.find?_isSome] at h
  rw [List.any_eq_true]
  exact h

theorem mem_ids_of_any (cs : List Candidate) (c : Nat)
    (h : (cs.any fun x => x.id == c) = true) : c ∈ cs.map (fun x => x.id) := by
  rw [List.any_eq_true] at h
  obtain ⟨x, hx, hxc⟩ := h
  exact List.mem_map.mpr ⟨x, hx, by simpa using hxc⟩

theorem length_filter_le_one_of_nodup (rs : List VoteRecord) (v : Identity)
    (h : (rs.map fun r => r.voter).Nodup) :
    (rs.filter fun r => r.voter == v).length ≤ 1 := by
  induction rs with
  | nil => simp
  | cons r rs ih =>
    simp only [List.map_cons, List.nodup_cons] at h
    by_cases hr : r.voter = v
    · have hnone : (rs.filter fun r => r.voter == v) = [] := by
        rw [List.filter_eq_nil_iff]
        intro r' hr' hv
        apply h.1
        rw [hr]
        exact List.mem_map.mpr ⟨r', hr', by simpa using hv⟩
      simp [List.filter_cons, hr, hnone]
    · simp only [List.filter_cons, beq_iff_eq, hr, if_false]
      exact ih h.2

theorem wellFormed_createElection (administrators eligibleVoters : List Identity) :
    WellFormed (createElection administrators eligibleVoters) := by
  simp [WellFormed, createElection, totalVotes]

theorem wellFormed_castVote (s s' : Election) (v : Identity) (c : Nat) (hs : WellFormed s)
    (h : castVote s v c = .ok s') : WellFormed s' := by
  obtain ⟨hids, htally, hnd⟩ := hs
  obtain ⟨_, _, hany, hc, rfl⟩ := (castVote_ok_iff s v c s').mp h
  refine ⟨?_, ?_, ?_⟩
  · simp only [bump_ids, bump_length]
    exact hids
  · have hnodup : (s.candidates.map fun x => x.id).Nodup := by
      rw [hids]; exact List.nodup_range _
    simp only [totalVotes] at htally ⊢
    rw [sum_bump c s.candidates hnodup (mem_ids_of_any _ _ hc), htally]
    simp
  · simp only [List.map_append, List.map_cons, List.map_nil]
    rw [List.nodup_append]
    refine ⟨hnd, List.nodup_singleton _, ?_⟩
    intro a ha hb
    simp only [List.mem_singleton] at hb
    subst hb
    rw [List.any_eq_false] at hany
    obtain ⟨r, hr, hrv⟩ := List.mem_map.mp ha
    exact hany r hr (by simpa using hrv)

theorem apply_noncast (s s' : Election) (op : Op) (hop : op.isCastVote = false)
    (h : apply s op = .ok s') :
    s'.votes = s.votes ∧ totalVotes s' = totalVotes s ∧
    (s.candidates.map (fun c => c.id) = List.range s.candidates.length →
      s'.candidates.map (fun c => c.id) = List.range s'.candidates.length) := by
  cases op with
  | registerCandidate caller name manifesto =>
    simp only [apply, registerCandidate] at h
    by_cases h1 : roleOf s caller = .Administrator
    · by_cases h2 : s.phase = .Created
      · simp only [h1, h2, ne_eq, not_true_eq_false, if_false, Except.ok.injEq] at h
        subst h
        refine ⟨rfl, by simp [totalVotes], ?_⟩
        intro hids
        simp only [List.map_append, List.map_cons, List.map_nil, List.length_append,
          List.length_singleton, List.range_succ, hids]
      · simp [h1, h2] at h
    · simp [h1] at h
  | startElection caller =>
    simp only [apply, startElection] at h
    by_cases h1 : roleOf s caller = .Administrator
    · by_cases h2 : s.phase = .Created
      · cases h3 : s.candidates.isEmpty
        · simp only [h1, h2, h3, ne_eq, not_true_eq_false, if_false, Except.ok.injEq,
            Bool.false_eq_true] at h
          subst h
          exact ⟨rfl, rfl, id⟩
        · simp [h1, h2, h3] at h
      · simp [h1, h2] at h
    · simp [h1] at h
  | endElection caller =>
    simp only [apply, endElection] at h
    by_cases h1 : roleOf s caller = .Administrator
    · by_cases h2 : s.phase = .Open
      · simp only [h1, h2, ne_eq, not_true_eq_false, if_false, Except.ok.injEq] at h
        subst h
        exact ⟨rfl, rfl, id⟩
      · simp [h1, h2] at h
    · simp [h1] at h
  | setVisibility caller v =>
    simp only [apply, setVisibility] at h
    by_cases h1 : roleOf s caller = .Administrator
    · by_cases h2 : s.phase = .Closed
      · simp [h1, h2] at h
      · simp only [h1, h2, ne_eq, not_true_eq_false, if_false, Except.ok.injEq] at h
        subst h
        exact ⟨rfl, rfl, id⟩
    · simp [h1] at h
  | castVote caller c => simp [Op.isCastVote] at hop

theorem wellFormed_apply (s s' : Election) (op : Op) (hs : WellFormed s)
    (h : apply s op = .ok s') : WellFormed s' := by
  cases hop : op.isCastVote
  · obtain ⟨hv, ht, hi⟩ := apply_noncast s s' op hop h
    exact ⟨hi hs.1, by rw [ht, hv]; exact hs.2.1, by rw [hv]; exact hs.2.2⟩
  · cases op with
    | castVote v c => exact wellFormed_castVote s s' v c hs h
    | _ => simp [Op.isCastVote] at hop

theorem wellFormed_step (s : Election) (op : Op) (hs : WellFormed s) :
    WellFormed (step s op) := by
  unfold step
  cases h : apply s op with
  | error e => exact hs
  | ok s' => exact wellFormed_apply s s' op hs h

theorem wellFormed_run (s : Election) (ops : List Op) (hs : WellFormed s) :
    WellFormed (run s ops) := by
  induction ops generalizing s with
  | nil => exact hs
  | cons op ops ih => exact ih (step s op) (wellFormed_step s op hs)

theorem roleOf_congr (s t : Election) (h1 : t.administrators = s.administrators)
    (h2 : t.eligibleVoters = s.eligibleVoters) (v : Identity) : roleOf t v = roleOf s v := by
  simp only [roleOf, h1, h2]

/-- Along a sequence of `castVote` calls the role configuration and the phase
stay as they are, and a voter who has a record keeps having one. -/
theorem run_castVotes_keeps (s : Election) (v : Identity) (calls : List (Identity × Nat)) :
    (run s (castVotes calls)).administrators = s.administrators ∧
    (run s (castVotes calls)).eligibleVoters = s.eligibleVoters ∧
    (run s (castVotes calls)).phase = s.phase ∧
    ((s.votes.any fun r => r.voter == v) = true →
      ((run s (castVotes calls)).votes.any fun r => r.voter == v) = true) := by
  induction calls generalizing s with
  | nil => exact ⟨rfl, rfl, rfl, id⟩
  | cons p ps ih =>
    have hrun : run s (castVotes (p :: ps)) = run (step s (.castVote p.1 p.2)) (castVotes ps) := rfl
    rw [hrun]
    obtain ⟨i1, i2, i3, i4⟩ := ih (step s (.castVote p.1 p.2))
    have hstep : (step s (.castVote p.1 p.2)).administrators = s.administrators ∧
        (step s (.castVote p.1 p.2)).eligibleVoters = s.eligibleVoters ∧
        (step s (.castVote p.1 p.2)).phase = s.phase ∧
        ((s.votes.any fun r => r.voter == v) = true →
          ((step s (.castVote p.1 p.2)).votes.any fun r => r.voter == v) = true) := by
      unfold step
      cases h : apply s (.castVote p.1 p.2) with
      | error e => exact ⟨rfl, rfl, rfl, id⟩
      | ok s' =>
        obtain ⟨_, _, _, _, rfl⟩ := (castVote_ok_iff s p.1 p.2 s').mp h
        refine ⟨rfl, rfl, rfl, ?_⟩
        intro hv
        simp only [List.any_append, hv, Bool.true_or]
    exact ⟨i1.trans hstep.1, i2.trans hstep.2.1, i3.trans hstep.2.2.1,
      fun hv => i4 (hstep.2.2.2 hv)⟩

/-! ## The claims about the ledger -/

/-- C3: in every reachable state of the election no voter has more than one
vote record; and when a `castVote` call by a voter satisfies all preconditions
(the caller is a Voter, the phase is Open, the caller has no record, the
candidate exists) it succeeds and leaves exactly one record for that voter,
after which, along every further sequence of `castVote` calls (by that voter or
by others), every `castVote` by the same voter fails with `AlreadyVoted`,
whatever candidate it targets. -/
theorem castVote_exactly_once (administrators eligibleVoters : List Identity) (ops : List Op)
    (v : Identity) (c : Nat) :
    (recordsOf (run (createElection administrators eligibleVoters) ops) v).length ≤ 1 ∧
    (roleOf (run (createElection administrators eligibleVoters) ops) v = .Voter →
      (run (createElection administrators eligibleVoters) ops).phase = .Open →
      recordsOf (run (createElection administrators eligibleVoters) ops) v = [] →
      (tallyOf (run (createElection administrators eligibleVoters) ops) c).isSome = true →
      ∃ s', castVote (run (createElection administrators eligibleVoters) ops) v c = .ok s' ∧
        (recordsOf s' v).length = 1 ∧
        ∀ (later : List (Identity × Nat)) (c' : Nat),
          castVote (run s' (castVotes later)) v c' = .error .AlreadyVoted ∧
          (recordsOf (run s' (castVotes later)) v).length = 1) := by
  have hwf := wellFormed_run _ ops (wellFormed_createElection administrators eligibleVoters)
  refine ⟨length_filter_le_one_of_nodup _ v hwf.2.2, ?_⟩
  intro hrole hphase hnone hcand
  have hany := any_eq_false_of_recordsOf_nil _ v hnone
  have hc := any_id_of_tallyOf_isSome _ c hcand
  obtain ⟨s', hs'⟩ : ∃ s', castVote (run (createElection administrators eligibleVoters) ops) v c
      = .ok s' := ⟨_, (castVote_ok_iff _ v c _).mpr ⟨hrole, hphase, hany, hc, rfl⟩⟩
  have hwf' := wellFormed_castVote _ s' v c hwf hs'
  obtain ⟨_, _, _, _, hdef⟩ := (castVote_ok_iff _ v c s').mp hs'
  have hvoted : (s'.votes.any fun r => r.voter == v) = true := by
    rw [hdef]; simp
  have hrole' : roleOf s' v = .Voter := by rw [hdef]; exact hrole
  have hphase' : s'.phase = .Open := by rw [hdef]; exact hphase
  have hone : ∀ t : Election, WellFormed t → (t.votes.any fun r => r.voter == v) = true →
      (recordsOf t v).length = 1 := by
    intro t ht hv
    have hle := length_filter_le_one_of_nodup t.votes v ht.2.2
    have hpos : 0 < (recordsOf t v).length := by
      rw [List.any_eq_true] at hv
      obtain ⟨r, hr, hrv⟩ := hv
      exact List.length_pos_of_mem (List.mem_filter.mpr ⟨hr, hrv⟩)
    unfold recordsOf at hpos ⊢
    omega
  refine ⟨s', hs', hone s' hwf' hvoted, ?_⟩
  intro later c'
  obtain ⟨k1, k2, k3, k4⟩ := run_castVotes_keeps s' v later
  refine ⟨castVote_already _ v c' ?_ (k3.trans hphase') (k4 hvoted), ?_⟩
  · rw [roleOf_congr s' _ k1 k2 v]; exact hrole'
  · exact hone _ (wellFormed_run s' _ hwf') (k4 hvoted)

/-- Witness for C3 on Scenario A of the spec: voter 1 votes for candidate 0;
after further calls by voter 1 and voter 2, a call by voter 1 for candidate 1
fails with `AlreadyVoted`. -/
theorem castVote_exactly_once_witness :
    ∃ s', castVote (run (createElection [0] [1, 2]) scenarioA) 1 0 = .ok s' ∧
      castVote (run s' (castVotes [(1, 1), (2, 1), (1, 0)])) 1 1 = .error .AlreadyVoted := by
  obtain ⟨s', h1, _, h3⟩ :=
    (castVote_exactly_once [0] [1, 2] scenarioA 1 0).2 (by decide) (by decide) (by decide)
      (by decide)
  exact ⟨s', h1, (h3 [(1, 1), (2, 1), (1, 0)] 1).1⟩

/-- C4: in every reachable state the sum of the candidates' vote counts equals
the number of vote records; a successful `castVote` adds exactly one record,
raises the tally of the chosen candidate by one and the sum by one, and leaves
every other tally as it was; any other successful operation leaves the records
and the sum of the tallies unchanged (a failed operation changes nothing). -/
theorem tally_sum_eq_record_count (administrators eligibleVoters : List Identity)
    (ops : List Op) :
    totalVotes (run (createElection administrators eligibleVoters) ops) =
        (run (createElection administrators eligibleVoters) ops).votes.length ∧
    (∀ (v : Identity) (c : Nat) (s' : Election),
      castVote (run (createElection administrators eligibleVoters) ops) v c = .ok s' →
        s'.votes.length = (run (createElection administrators eligibleVoters) ops).votes.length + 1 ∧
        totalVotes s' = totalVotes (run (createElection administrators eligibleVoters) ops) + 1 ∧
        (∃ n, tallyOf (run (createElection administrators eligibleVoters) ops) c = some n ∧
          tallyOf s' c = some (n + 1)) ∧
        (∀ c', c' ≠ c →
          tallyOf s' c' = tallyOf (run (createElection administrators eligibleVoters) ops) c')) ∧
    (∀ (op : Op) (s' : Election), op.isCastVote = false →
      apply (run (createElection administrators eligibleVoters) ops) op = .ok s' →
        s'.votes = (run (createElection administrators eligibleVoters) ops).votes ∧
        totalVotes s' = totalVotes (run (createElection administrators eligibleVoters) ops)) := by
  have hwf := wellFormed_run _ ops (wellFormed_createElection administrators eligibleVoters)
  refine ⟨hwf.2.1, ?_, ?_⟩
  · intro v c s' h
    have hwf' := wellFormed_castVote _ s' v c hwf h
    obtain ⟨_, _, _, hc, hdef⟩ := (castVote_ok_iff _ v c s').mp h
    have hlen : s'.votes.length =
        (run (createElection administrators eligibleVoters) ops).votes.length + 1 := by
      rw [hdef]; simp
    have htally : ∀ c', tallyOf s' c' =
        if c' = c then
          (tallyOf (run (createElection administrators eligibleVoters) ops) c').map (· + 1)
        else tallyOf (run (createElection administrators eligibleVoters) ops) c' := by
      intro c'
      rw [hdef]
      exact find_bump c c' _
    refine ⟨hlen, ?_, ?_, ?_⟩
    · rw [hwf'.2.1, hlen, hwf.2.1]
    · have hsome : (tallyOf (run (createElection administrators eligibleVoters) ops) c).isSome
          = true := by
        unfold tallyOf
        rw [Option.isSome_map', List.find?_isSome]
        rw [List.any_eq_true] at hc
        exact hc
      obtain ⟨n, hn⟩ := Option.isSome_iff_exists.mp hsome
      exact ⟨n, hn, by rw [htally c, if_pos rfl, hn]; rfl⟩
    · intro c' hne
      rw [htally c', if_neg hne]
  · intro op s' hop h
    obtain ⟨hv, ht, _⟩ := apply_noncast _ s' op hop h
    exact ⟨hv, ht⟩

/-- Witness for C4 on Scenario A of the spec: the vote of voter 1 for Alice
adds one record and raises the sum of the tallies by one. -/
theorem tally_sum_eq_record_count_witness :
    ∃ s', castVote (run (createElection [0] [1, 2]) scenarioA) 1 0 = .ok s' ∧
      s'.votes.length = 1 ∧ totalVotes s' = 1 ∧ tallyOf s' 0 = some 1 ∧ tallyOf s' 1 = some 0 := by
  refine ⟨_, rfl, ?_⟩
  obtain ⟨h1, h2, _, h4⟩ :=
    (tally_sum_eq_record_count [0] [1, 2] scenarioA).2.1 1 0 _ rfl
  exact ⟨h1, h2, by decide, (h4 1 (by decide)).trans (by decide)⟩

end ZuriDao.Ledger
